import Mathlib

/-!
Verification of the PersonaGen001 frontend (`src/persona-frontend/src/PersonaApp.tsx`).

The repository's behavioural content is a single React component with state
hooks `name`, `sample`, `persona`, `loading`, `personaId`, `newSample` and two
async handlers `generatePersona` / `addToPersona`, each wrapping one HTTP POST.
(`src/unnamed/part_000` is a behaviourally identical duplicate of the same
component differing only in styling and the looseness of the response type.)

We embed the component as a deterministic labelled transition system:

* `ComponentState` holds the six state hooks.
* Each async handler runs synchronously up to its `await` (set the loading
  flag, issue the request) and resumes when the promise settles, so a handler
  becomes two machine steps: a click event that dispatches the request and a
  `respond` event that applies the `then`/`catch`/`finally` continuation.
* `MState.pending` records which request (if any) is in flight; `createdIds`
  is ghost history recording the `id` field of every successful create
  response, used only to state that refinement calls are addressed by an id
  obtained from a prior create response.
* Click events are guarded exactly by the component's rendering logic: the
  generate button is rendered with `disabled={loading || !name || !sample}`,
  the refinement section is rendered only under `{persona && ...}`, and its
  button with `disabled={loading || !newSample}`.
* Labels record the observable effects: `issue` for a dispatched HTTP request
  and `alert` for the user-visible error notification of a `catch` block.
-/

namespace PersonaGen

/-- The create/refine response body, `{ id: number, persona: <object> }`.
The `persona` payload is opaque to the UI (only pretty-printed), so we model
it as an uninterpreted `String`. -/
structure PersonaResponse where
  id : Int
  persona : String
  deriving DecidableEq, Repr

/-- The JSON request body `{ text: ... }` sent by both calls. -/
structure RequestBody where
  text : String
  deriving DecidableEq, Repr

/-- An HTTP request as issued through `api.post(url, body)`. -/
structure HttpRequest where
  method : String
  url : String
  body : RequestBody
  deriving DecidableEq, Repr

/-- Characters that JavaScript's `encodeURIComponent` leaves unescaped:
`A-Z a-z 0-9 - _ . ! ~ * ' ( )`. -/
def isURIUnreserved (c : Char) : Bool :=
  (65 ≤ c.toNat && c.toNat ≤ 90) ||
  (97 ≤ c.toNat && c.toNat ≤ 122) ||
  (48 ≤ c.toNat && c.toNat ≤ 57) ||
  c.toNat == 45 || c.toNat == 95 || c.toNat == 46 || c.toNat == 33 ||
  c.toNat == 126 || c.toNat == 42 || c.toNat == 39 || c.toNat == 40 ||
  c.toNat == 41

/-- Uppercase hexadecimal digit for `n < 16`. -/
def hexDigit (n : Nat) : Char :=
  if n < 10 then Char.ofNat (48 + n) else Char.ofNat (55 + n)

/-- Percent-encoding of one byte, e.g. `32 ↦ "%20"`. -/
def percentByte (b : Nat) : String :=
  String.mk [Char.ofNat 37, hexDigit (b / 16), hexDigit (b % 16)]

/-- UTF-8 byte sequence of a Unicode code point. -/
def utf8Bytes (n : Nat) : List Nat :=
  if n < 128 then [n]
  else if n < 2048 then [192 + n / 64, 128 + n % 64]
  else if n < 65536 then [224 + n / 4096, 128 + (n / 64) % 64, 128 + n % 64]
  else [240 + n / 262144, 128 + (n / 4096) % 64, 128 + (n / 64) % 64, 128 + n % 64]

/-- JavaScript's `encodeURIComponent`: unreserved characters pass through,
every other character is UTF-8 encoded and each byte percent-escaped. -/
def encodeURIComponent (s : String) : String :=
  String.join (s.toList.map fun c =>
    if isURIUnreserved c then String.mk [c]
    else String.join ((utf8Bytes c.toNat).map percentByte))

/-- The six `useState` hooks of `PersonaApp`, with their initial values
`useState('')`, `useState('')`, `useState(null)`, `useState(false)`,
`useState(null)`, `useState('')`. -/
structure ComponentState where
  name : String
  sample : String
  persona : Option PersonaResponse
  loading : Bool
  personaId : Option Int
  newSample : String
  deriving DecidableEq, Repr

/-- Which request, if any, is awaiting its promise. -/
inductive Pending where
  | idle
  | createReq (req : HttpRequest)
  | addReq (req : HttpRequest)
  deriving DecidableEq, Repr

/-- Full machine state: the component state, the in-flight request, and ghost
history of the ids carried by successful create responses. -/
structure MState where
  comp : ComponentState
  pending : Pending
  createdIds : List Int
  deriving DecidableEq, Repr

/-- How the awaited promise settles: `success data` for a 2xx response with
parsed body `data`, `failure` for a network error or non-2xx status (both land
in the `catch` block). -/
inductive Outcome where
  | success (data : PersonaResponse)
  | failure
  deriving DecidableEq, Repr

/-- User and network events driving the component. -/
inductive Event where
  | setNameInput (v : String)
  | setSampleInput (v : String)
  | setNewSampleInput (v : String)
  | clickGenerate
  | clickAddSample
  | respond (o : Outcome)
  deriving DecidableEq, Repr

/-- Observable side effects of a step. -/
inductive Label where
  | issue (req : HttpRequest)
  | alert (msg : String)
  deriving DecidableEq, Repr

/-- JavaScript truthiness test `!personaId` on a `number | null` value:
`null` and `0` are falsy. -/
def isFalsyId : Option Int → Bool
  | Option.none => true
  | some n => n == 0

/-- The request built on line 30:
`api.post(\x60/persona/?name=$\x7bencodeURIComponent(name)\x7d\x60, \x7b text: sample \x7d)`. -/
def createRequest (name sample : String) : HttpRequest :=
  { method := "POST"
    url := "/persona/?name=" ++ encodeURIComponent name
    body := { text := sample } }

/-- The request built on line 45:
`api.post(\x60/persona/$\x7bpersonaId\x7d/add_sample\x60, \x7b text: newSample \x7d)`. -/
def addSampleRequest (id : Int) (newSample : String) : HttpRequest :=
  { method := "POST"
    url := "/persona/" ++ toString id ++ "/add_sample"
    body := { text := newSample } }

/-- The generate button is clickable iff not `disabled={loading || !name || !sample}`. -/
def generateEnabled (c : ComponentState) : Bool :=
  !c.loading && !(c.name == "") && !(c.sample == "")

/-- The refinement button is clickable iff not `disabled={loading || !newSample}`. -/
def addEnabled (c : ComponentState) : Bool :=
  !c.loading && !(c.newSample == "")

/-- The refinement section is rendered only under `{persona && (...)}`. -/
def refinementVisible (c : ComponentState) : Bool :=
  c.persona.isSome

/-- One machine step. Click events run the handler up to its `await`; a
`respond` event runs the continuation (`then` assignments or `catch` alert,
then the `finally` clearing the loading flag). Events that the UI does not
permit (disabled button, hidden section, response with nothing pending) leave
the state unchanged. -/
def step (m : MState) (e : Event) : MState × Option Label :=
  match e with
  | Event.setNameInput v =>
      ({ m with comp := { m.comp with name := v } }, Option.none)
  | Event.setSampleInput v =>
      ({ m with comp := { m.comp with sample := v } }, Option.none)
  | Event.setNewSampleInput v =>
      if refinementVisible m.comp then
        ({ m with comp := { m.comp with newSample := v } }, Option.none)
      else (m, Option.none)
  | Event.clickGenerate =>
      if generateEnabled m.comp then
        let req := createRequest m.comp.name m.comp.sample
        ({ m with comp := { m.comp with loading := true }
                  pending := Pending.createReq req },
         some (Label.issue req))
      else (m, Option.none)
  | Event.clickAddSample =>
      if refinementVisible m.comp && addEnabled m.comp then
        if isFalsyId m.comp.personaId then (m, Option.none)
        else
          match m.comp.personaId with
          | Option.none => (m, Option.none)
          | some id =>
              let req := addSampleRequest id m.comp.newSample
              ({ m with comp := { m.comp with loading := true }
                        pending := Pending.addReq req },
               some (Label.issue req))
      else (m, Option.none)
  | Event.respond o =>
      match m.pending, o with
      | Pending.idle, _ => (m, Option.none)
      | Pending.createReq _, Outcome.success data =>
          ({ m with comp := { m.comp with persona := some data
                                          personaId := some data.id
                                          loading := false }
                    pending := Pending.idle
                    createdIds := data.id :: m.createdIds },
           Option.none)
      | Pending.createReq _, Outcome.failure =>
          ({ m with comp := { m.comp with loading := false }
                    pending := Pending.idle },
           some (Label.alert "Error creating persona"))
      | Pending.addReq _, Outcome.success data =>
          ({ m with comp := { m.comp with persona := some data
                                          newSample := ""
                                          loading := false }
                    pending := Pending.idle },
           Option.none)
      | Pending.addReq _, Outcome.failure =>
          ({ m with comp := { m.comp with loading := false }
                    pending := Pending.idle },
           some (Label.alert "Error updating persona"))

/-- The component's initial state. -/
def initState : MState :=
  { comp := { name := "", sample := "", persona := Option.none
              loading := false, personaId := Option.none, newSample := "" }
    pending := Pending.idle
    createdIds := [] }

/-- State reached by a sequence of events from the initial state. -/
def run (es : List Event) : MState :=
  es.foldl (fun m e => (step m e).1) initState

/-- Reachable machine states. -/
inductive Reachable : MState → Prop where
  | init : Reachable initState
  | next (m : MState) (e : Event) : Reachable m → Reachable (step m e).1

theorem reachable_foldl (m : MState) (es : List Event) (h : Reachable m) :
    Reachable (es.foldl (fun m e => (step m e).1) m) := by
  induction es generalizing m with
  | nil => exact h
  | cons e es ih => exact ih _ (Reachable.next m e h)

theorem reachable_run (es : List Event) : Reachable (run es) :=
  reachable_foldl initState es Reachable.init

/-- Machine invariant: the loading flag is set exactly while a request is in
flight; an in-flight refinement request implies a stored record and a set,
non-falsy `personaId`; a stored record implies a set `personaId`; and every
set `personaId` came from some successful create response. -/
def Inv (m : MState) : Prop :=
  (m.comp.loading = true ↔ m.pending ≠ Pending.idle)
  ∧ (∀ req, m.pending = Pending.addReq req →
      m.comp.persona.isSome = true ∧ ∃ n, m.comp.personaId = some n)
  ∧ (m.comp.persona.isSome = true → m.comp.personaId.isSome = true)
  ∧ (∀ n, m.comp.personaId = some n → n ∈ m.createdIds)

theorem inv_init : Inv initState := by
  refine ⟨by simp [initState], ?_, by simp [initState], ?_⟩
  · intro req hr
    simp [initState] at hr
  · intro n hn
    simp [initState] at hn

theorem inv_step (m : MState) (e : Event) (h : Inv m) : Inv (step m e).1 := by
  obtain ⟨⟨nm, sm, pe, ld, pid, ns⟩, pending, created⟩ := m
  obtain ⟨h1, h2, h3, h4⟩ := h
  cases e with
  | setNameInput v => exact ⟨h1, h2, h3, h4⟩
  | setSampleInput v => exact ⟨h1, h2, h3, h4⟩
  | setNewSampleInput v =>
      simp only [step]
      split
      · exact ⟨h1, h2, h3, h4⟩
      · exact ⟨h1, h2, h3, h4⟩
  | clickGenerate =>
      simp only [step]
      split
      · refine ⟨by simp, ?_, h3, h4⟩
        intro req hr
        simp at hr
      · exact ⟨h1, h2, h3, h4⟩
  | clickAddSample =>
      simp only [step]
      split
      · rename_i henabled
        split
        · exact ⟨h1, h2, h3, h4⟩
        · cases pid with
          | none => exact ⟨h1, h2, h3, h4⟩
          | some id =>
              refine ⟨by simp, ?_, h3, h4⟩
              intro req hr
              refine ⟨?_, id, rfl⟩
              simpa [refinementVisible] using ((Bool.and_eq_true _ _).mp henabled).1
      · exact ⟨h1, h2, h3, h4⟩
  | respond o =>
      cases pending with
      | idle => cases o <;> exact ⟨h1, h2, h3, h4⟩
      | createReq req =>
          cases o with
          | success data =>
              simp only [step]
              refine ⟨by simp, ?_, by simp, ?_⟩
              · intro r hr
                simp at hr
              · intro n hn
                simp only [Option.some.injEq] at hn
                subst hn
                exact List.mem_cons_self _ _
          | failure =>
              simp only [step]
              refine ⟨by simp, ?_, h3, h4⟩
              intro r hr
              simp at hr
      | addReq req =>
          cases o with
          | success data =>
              simp only [step]
              refine ⟨by simp, ?_, ?_, h4⟩
              · intro r hr
                simp at hr
              · intro _
                obtain ⟨hpe, n, hn⟩ := h2 req rfl
                have hn2 : pid = some n := hn
                simp [hn2]
          | failure =>
              simp only [step]
              refine ⟨by simp, ?_, h3, h4⟩
              intro r hr
              simp at hr

theorem inv_reachable (m : MState) (h : Reachable m) : Inv m := by
  induction h with
  | init => exact inv_init
  | next m e _ ih => exact inv_step m e ih

/-! ### States of the spec's interaction state machine -/

/-- Abstract states of the spec's state machine. -/
inductive Phase where
  | empty
  | generating
  | ready
  | refining
  deriving DecidableEq, Repr

/-- Abstraction of a machine state to a spec phase: a pending create request
is `Generating`, a pending refinement request is `Refining`, and an idle state
is `Ready` or `Empty` according to whether a PersonaRecord is present. -/
def phaseOf (m : MState) : Phase :=
  match m.pending with
  | Pending.createReq _ => Phase.generating
  | Pending.addReq _ => Phase.refining
  | Pending.idle => if m.comp.persona.isSome then Phase.ready else Phase.empty

/-! ### Step characterisation lemmas -/

theorem generateEnabled_of (c : ComponentState)
    (hn : c.name ≠ "") (hs : c.sample ≠ "") (hl : c.loading = false) :
    generateEnabled c = true := by
  simp [generateEnabled, hn, hs, hl]

theorem addEnabled_of (c : ComponentState)
    (hns : c.newSample ≠ "") (hl : c.loading = false) :
    addEnabled c = true := by
  simp [addEnabled, hns, hl]

theorem step_clickGenerate_enabled (m : MState) (hg : generateEnabled m.comp = true) :
    step m Event.clickGenerate =
      ({ m with comp := { m.comp with loading := true }
                pending := Pending.createReq (createRequest m.comp.name m.comp.sample) },
       some (Label.issue (createRequest m.comp.name m.comp.sample))) := by
  obtain ⟨comp, pending, created⟩ := m
  simp [step, hg]

theorem step_respond_create_success (m : MState) (req : HttpRequest)
    (data : PersonaResponse) (hp : m.pending = Pending.createReq req) :
    step m (Event.respond (Outcome.success data)) =
      ({ m with comp := { m.comp with persona := some data
                                      personaId := some data.id
                                      loading := false }
                pending := Pending.idle
                createdIds := data.id :: m.createdIds },
       Option.none) := by
  obtain ⟨comp, pending, created⟩ := m
  subst hp
  rfl

theorem step_respond_create_failure (m : MState) (req : HttpRequest)
    (hp : m.pending = Pending.createReq req) :
    step m (Event.respond Outcome.failure) =
      ({ m with comp := { m.comp with loading := false }
                pending := Pending.idle },
       some (Label.alert "Error creating persona")) := by
  obtain ⟨comp, pending, created⟩ := m
  subst hp
  rfl

theorem step_clickAdd_active (m : MState) (id : Int)
    (hv : refinementVisible m.comp = true) (he : addEnabled m.comp = true)
    (hid : m.comp.personaId = some id) (h0 : (id == 0) = false) :
    step m Event.clickAddSample =
      ({ m with comp := { m.comp with loading := true }
                pending := Pending.addReq (addSampleRequest id m.comp.newSample) },
       some (Label.issue (addSampleRequest id m.comp.newSample))) := by
  obtain ⟨⟨nm, sm, pe, ld, pid, ns⟩, pending, created⟩ := m
  have hid2 : pid = some id := hid
  subst hid2
  simp [step, hv, he, isFalsyId, h0]

theorem step_clickAdd_falsy (m : MState) (hf : isFalsyId m.comp.personaId = true) :
    step m Event.clickAddSample = (m, Option.none) := by
  obtain ⟨⟨nm, sm, pe, ld, pid, ns⟩, pending, created⟩ := m
  have hf2 : isFalsyId pid = true := hf
  simp only [step]
  split
  · simp [hf2]
  · rfl

theorem step_respond_add_success (m : MState) (req : HttpRequest)
    (data : PersonaResponse) (hp : m.pending = Pending.addReq req) :
    step m (Event.respond (Outcome.success data)) =
      ({ m with comp := { m.comp with persona := some data
                                      newSample := ""
                                      loading := false }
                pending := Pending.idle },
       Option.none) := by
  obtain ⟨comp, pending, created⟩ := m
  subst hp
  rfl

theorem step_respond_add_failure (m : MState) (req : HttpRequest)
    (hp : m.pending = Pending.addReq req) :
    step m (Event.respond Outcome.failure) =
      ({ m with comp := { m.comp with loading := false }
                pending := Pending.idle },
       some (Label.alert "Error updating persona")) := by
  obtain ⟨comp, pending, created⟩ := m
  subst hp
  rfl

/-! ### Concrete states used to instantiate the theorems -/

/-- Idle initial-like state with the creation form filled in. -/
def demoFilled : MState :=
  { comp := { name := "Hemingwayish", sample := "It was a good day."
              persona := Option.none, loading := false
              personaId := Option.none, newSample := "" }
    pending := Pending.idle
    createdIds := [] }

/-- Idle state holding a persona with id 1 and refinement text entered. -/
def demoReady : MState :=
  { comp := { name := "Hemingwayish", sample := "It was a good day."
              persona := some ⟨1, "profile"⟩, loading := false
              personaId := some 1, newSample := "The sea was calm." }
    pending := Pending.idle
    createdIds := [1] }

/-! ### Claim theorems -/

/-- C1: for every non-empty `name` and non-empty `sample`, if the create call
succeeds then afterwards the stored PersonaRecord equals the response body and
the stored PersonaId equals the response's `id` field. -/
theorem create_success_stores_response_and_id (m : MState) (data : PersonaResponse)
    (hn : m.comp.name ≠ "") (hs : m.comp.sample ≠ "") (hl : m.comp.loading = false) :
    ((step (step m Event.clickGenerate).1 (Event.respond (Outcome.success data))).1.comp.persona
        = some data)
    ∧ ((step (step m Event.clickGenerate).1 (Event.respond (Outcome.success data))).1.comp.personaId
        = some data.id) := by
  rw [step_clickGenerate_enabled m (generateEnabled_of m.comp hn hs hl)]
  dsimp only
  rw [step_respond_create_success _ (createRequest m.comp.name m.comp.sample) data rfl]
  exact ⟨rfl, rfl⟩

theorem create_success_stores_response_and_id_witness :
    demoFilled.comp.name ≠ "" ∧ demoFilled.comp.sample ≠ "" ∧
    ((step (step demoFilled Event.clickGenerate).1
        (Event.respond (Outcome.success ⟨1, "profile"⟩))).1.comp.persona = some ⟨1, "profile"⟩)
    ∧ ((step (step demoFilled Event.clickGenerate).1
        (Event.respond (Outcome.success ⟨1, "profile"⟩))).1.comp.personaId = some 1) :=
  ⟨by decide, by decide,
   create_success_stores_response_and_id demoFilled ⟨1, "profile"⟩
     (by decide) (by decide) rfl⟩

/-- C2: whenever the create call fails, PersonaRecord and PersonaId are
unchanged from their prior values and a user-visible error alert is raised. -/
theorem create_failure_preserves_record_and_alerts (m : MState)
    (hn : m.comp.name ≠ "") (hs : m.comp.sample ≠ "") (hl : m.comp.loading = false) :
    ((step (step m Event.clickGenerate).1 (Event.respond Outcome.failure)).1.comp.persona
        = m.comp.persona)
    ∧ ((step (step m Event.clickGenerate).1 (Event.respond Outcome.failure)).1.comp.personaId
        = m.comp.personaId)
    ∧ ((step (step m Event.clickGenerate).1 (Event.respond Outcome.failure)).2
        = some (Label.alert "Error creating persona")) := by
  rw [step_clickGenerate_enabled m (generateEnabled_of m.comp hn hs hl)]
  dsimp only
  rw [step_respond_create_failure _ (createRequest m.comp.name m.comp.sample) rfl]
  exact ⟨rfl, rfl, rfl⟩

theorem create_failure_preserves_record_and_alerts_witness :
    demoFilled.comp.name ≠ "" ∧
    ((step (step demoFilled Event.clickGenerate).1 (Event.respond Outcome.failure)).1.comp.persona
        = demoFilled.comp.persona)
    ∧ ((step (step demoFilled Event.clickGenerate).1 (Event.respond Outcome.failure)).1.comp.personaId
        = demoFilled.comp.personaId)
    ∧ ((step (step demoFilled Event.clickGenerate).1 (Event.respond Outcome.failure)).2
        = some (Label.alert "Error creating persona")) :=
  ⟨by decide,
   create_failure_preserves_record_and_alerts demoFilled (by decide) (by decide) rfl⟩

/-- C3: whenever a refinement call is dispatched (record shown, non-empty
refinement text, not loading, PersonaId set and non-falsy) and it succeeds,
PersonaRecord is replaced wholesale by the response body and the refinement
input is cleared to the empty string. -/
theorem refine_success_replaces_record_and_clears_input (m : MState)
    (data : PersonaResponse) (id : Int)
    (hv : refinementVisible m.comp = true) (hns : m.comp.newSample ≠ "")
    (hl : m.comp.loading = false) (hid : m.comp.personaId = some id) (h0 : id ≠ 0) :
    ((step (step m Event.clickAddSample).1 (Event.respond (Outcome.success data))).1.comp.persona
        = some data)
    ∧ ((step (step m Event.clickAddSample).1 (Event.respond (Outcome.success data))).1.comp.newSample
        = "") := by
  have h0b : (id == 0) = false := by simp [h0]
  rw [step_clickAdd_active m id hv (addEnabled_of m.comp hns hl) hid h0b]
  dsimp only
  rw [step_respond_add_success _ (addSampleRequest id m.comp.newSample) data rfl]
  exact ⟨rfl, rfl⟩

theorem refine_success_replaces_record_and_clears_input_witness :
    demoReady.comp.personaId = some 1 ∧
    ((step (step demoReady Event.clickAddSample).1
        (Event.respond (Outcome.success ⟨1, "updated"⟩))).1.comp.persona = some ⟨1, "updated"⟩)
    ∧ ((step (step demoReady Event.clickAddSample).1
        (Event.respond (Outcome.success ⟨1, "updated"⟩))).1.comp.newSample = "") :=
  ⟨rfl,
   refine_success_replaces_record_and_clears_input demoReady ⟨1, "updated"⟩ 1
     rfl (by decide) rfl rfl (by decide)⟩

/-- C4: whenever a refinement call is dispatched and it fails, PersonaRecord
is unchanged, the refinement input retains its contents, and a user-visible
error alert is raised. -/
theorem refine_failure_preserves_record_and_input (m : MState) (id : Int)
    (hv : refinementVisible m.comp = true) (hns : m.comp.newSample ≠ "")
    (hl : m.comp.loading = false) (hid : m.comp.personaId = some id) (h0 : id ≠ 0) :
    ((step (step m Event.clickAddSample).1 (Event.respond Outcome.failure)).1.comp.persona
        = m.comp.persona)
    ∧ ((step (step m Event.clickAddSample).1 (Event.respond Outcome.failure)).1.comp.newSample
        = m.comp.newSample)
    ∧ ((step (step m Event.clickAddSample).1 (Event.respond Outcome.failure)).2
        = some (Label.alert "Error updating persona")) := by
  have h0b : (id == 0) = false := by simp [h0]
  rw [step_clickAdd_active m id hv (addEnabled_of m.comp hns hl) hid h0b]
  dsimp only
  rw [step_respond_add_failure _ (addSampleRequest id m.comp.newSample) rfl]
  exact ⟨rfl, rfl, rfl⟩

theorem refine_failure_preserves_record_and_input_witness :
    demoReady.comp.personaId = some 1 ∧
    ((step (step demoReady Event.clickAddSample).1 (Event.respond Outcome.failure)).1.comp.persona
        = demoReady.comp.persona)
    ∧ ((step (step demoReady Event.clickAddSample).1 (Event.respond Outcome.failure)).1.comp.newSample
        = demoReady.comp.newSample)
    ∧ ((step (step demoReady Event.clickAddSample).1 (Event.respond Outcome.failure)).2
        = some (Label.alert "Error updating persona")) :=
  ⟨rfl,
   refine_failure_preserves_record_and_input demoReady 1
     rfl (by decide) rfl rfl (by decide)⟩

/-- C5: invoking addSampleToPersona with PersonaId unset is a no-op: the
machine state (hence PersonaRecord, RefinementInput and LoadingFlag) is
unchanged and no label — in particular no HTTP request — is emitted. -/
theorem add_sample_noop_when_personaId_unset (m : MState)
    (h : m.comp.personaId = Option.none) :
    step m Event.clickAddSample = (m, Option.none) :=
  step_clickAdd_falsy m (by rw [h]; rfl)

theorem add_sample_noop_when_personaId_unset_witness :
    demoFilled.comp.personaId = Option.none ∧
    step demoFilled Event.clickAddSample = (demoFilled, Option.none) :=
  ⟨rfl, add_sample_noop_when_personaId_unset demoFilled rfl⟩

theorem issue_sets_loading (m : MState) (e : Event) (req : HttpRequest)
    (h : (step m e).2 = some (Label.issue req)) :
    (step m e).1.comp.loading = true := by
  obtain ⟨⟨nm, sm, pe, ld, pid, ns⟩, pending, created⟩ := m
  cases e with
  | setNameInput v => simp [step] at h
  | setSampleInput v => simp [step] at h
  | setNewSampleInput v =>
      simp only [step] at h
      split at h <;> simp at h
  | clickGenerate =>
      simp only [step] at h ⊢
      split at h
      · rename_i hc
        simp [hc]
      · simp at h
  | clickAddSample =>
      cases pid with
      | none =>
          simp only [step] at h
          split at h
          · simp [isFalsyId] at h
          · simp at h
      | some id =>
          simp only [step] at h ⊢
          split at h
          · rename_i hc
            split at h
            · simp at h
            · rename_i hz
              simp [hc, hz]
          · simp at h
  | respond o =>
      cases pending <;> cases o <;> simp [step] at h

/-- Events driving the machine into a creation-in-flight state. -/
def demoFlight : List Event :=
  [Event.setNameInput "Hemingwayish", Event.setSampleInput "It was a good day.",
   Event.clickGenerate]

/-- C8: the loading flag is set by every request dispatch, stays set in every
reachable state with a request in flight, and is cleared by the resolution or
rejection of the pending request, on success and failure alike. -/
theorem loading_flag_during_flight (m : MState) (hm : Reachable m) :
    (∀ e req, (step m e).2 = some (Label.issue req) → (step m e).1.comp.loading = true)
    ∧ (m.pending ≠ Pending.idle → m.comp.loading = true)
    ∧ (∀ o, m.pending ≠ Pending.idle →
        (step m (Event.respond o)).1.comp.loading = false) := by
  refine ⟨fun e req h => issue_sets_loading m e req h, (inv_reachable m hm).1.mpr, ?_⟩
  intro o hp
  obtain ⟨comp, pending, created⟩ := m
  cases pending with
  | idle => exact absurd rfl hp
  | createReq req => cases o <;> rfl
  | addReq req => cases o <;> rfl

theorem loading_flag_during_flight_witness :
    (run demoFlight).comp.loading = true
    ∧ (step (run demoFlight) (Event.respond Outcome.failure)).1.comp.loading = false :=
  ⟨(loading_flag_during_flight (run demoFlight) (reachable_run demoFlight)).2.1 (by decide),
   (loading_flag_during_flight (run demoFlight) (reachable_run demoFlight)).2.2
     Outcome.failure (by decide)⟩

/-- C9: every request the component issues is a POST conforming to the HTTP
contract: a create call to `/persona/?name=<percent-encoded name>` with body
`\x7b text: sample \x7d`, or a refinement call to `/persona/{id}/add_sample`
with body `\x7b text: newSample \x7d` where `{id}` is a PersonaId obtained
from a prior successful create response. -/
theorem issued_requests_conform_to_http_contract (m : MState) (e : Event)
    (req : HttpRequest) (hm : Reachable m)
    (h : (step m e).2 = some (Label.issue req)) :
    req.method = "POST"
    ∧ ((req.url = "/persona/?name=" ++ encodeURIComponent m.comp.name
         ∧ req.body = { text := m.comp.sample })
       ∨ (∃ n, m.comp.personaId = some n ∧ n ∈ m.createdIds
           ∧ req.url = "/persona/" ++ toString n ++ "/add_sample"
           ∧ req.body = { text := m.comp.newSample })) := by
  have h4 := (inv_reachable m hm).2.2.2
  obtain ⟨⟨nm, sm, pe, ld, pid, ns⟩, pending, created⟩ := m
  cases e with
  | setNameInput v => simp [step] at h
  | setSampleInput v => simp [step] at h
  | setNewSampleInput v =>
      simp only [step] at h
      split at h <;> simp at h
  | clickGenerate =>
      simp only [step] at h
      split at h
      · simp only [Option.some.injEq, Label.issue.injEq] at h
        subst h
        exact ⟨rfl, Or.inl ⟨rfl, rfl⟩⟩
      · simp at h
  | clickAddSample =>
      cases pid with
      | none =>
          simp only [step] at h
          split at h
          · simp [isFalsyId] at h
          · simp at h
      | some id =>
          simp only [step] at h
          split at h
          · split at h
            · simp at h
            · simp only [Option.some.injEq, Label.issue.injEq] at h
              subst h
              exact ⟨rfl, Or.inr ⟨id, rfl, h4 id rfl, rfl, rfl⟩⟩
          · simp at h
  | respond o =>
      cases pending <;> cases o <;> simp [step] at h

/-- Events entering a name that needs percent-encoding, then a sample. -/
def demoEncode : List Event :=
  [Event.setNameInput "a b", Event.setSampleInput "t"]

theorem issued_requests_conform_to_http_contract_witness :
    encodeURIComponent "a b" = "a%20b"
    ∧ ((createRequest "a b" "t").method = "POST"
       ∧ (((createRequest "a b" "t").url
             = "/persona/?name=" ++ encodeURIComponent (run demoEncode).comp.name
            ∧ (createRequest "a b" "t").body = { text := (run demoEncode).comp.sample })
          ∨ (∃ n, (run demoEncode).comp.personaId = some n
              ∧ n ∈ (run demoEncode).createdIds
              ∧ (createRequest "a b" "t").url = "/persona/" ++ toString n ++ "/add_sample"
              ∧ (createRequest "a b" "t").body = { text := (run demoEncode).comp.newSample }))) :=
  ⟨by decide,
   issued_requests_conform_to_http_contract (run demoEncode) Event.clickGenerate
     (createRequest "a b" "t") (reachable_run demoEncode) (by decide)⟩

/-- C10: a successful create response with id 0 stores the record (so the
refinement section is shown) and sets PersonaId to 0, yet invoking
addSampleToPersona in any state whose PersonaId is 0 returns early with no
request and no state change, because the guard `if (!personaId) return`
treats the falsy id 0 exactly like an unset PersonaId. -/
theorem zero_id_blocks_refinement (m : MState) (data : PersonaResponse)
    (hn : m.comp.name ≠ "") (hs : m.comp.sample ≠ "") (hl : m.comp.loading = false)
    (h0 : data.id = 0) :
    ((step (step m Event.clickGenerate).1 (Event.respond (Outcome.success data))).1.comp.persona
        = some data)
    ∧ (refinementVisible
        (step (step m Event.clickGenerate).1 (Event.respond (Outcome.success data))).1.comp = true)
    ∧ ((step (step m Event.clickGenerate).1 (Event.respond (Outcome.success data))).1.comp.personaId
        = some 0)
    ∧ (∀ m2 : MState, m2.comp.personaId = some 0 →
        step m2 Event.clickAddSample = (m2, Option.none)) := by
  have hg := step_clickGenerate_enabled m (generateEnabled_of m.comp hn hs hl)
  refine ⟨?_, ?_, ?_, ?_⟩
  · rw [hg]
    dsimp only
    rw [step_respond_create_success _ (createRequest m.comp.name m.comp.sample) data rfl]
  · rw [hg]
    dsimp only
    rw [step_respond_create_success _ (createRequest m.comp.name m.comp.sample) data rfl]
    rfl
  · rw [hg]
    dsimp only
    rw [step_respond_create_success _ (createRequest m.comp.name m.comp.sample) data rfl]
    dsimp only
    rw [h0]
  · intro m2 h2
    exact step_clickAdd_falsy m2 (by rw [h2]; rfl)

theorem zero_id_blocks_refinement_witness :
    ((step (step demoFilled Event.clickGenerate).1
        (Event.respond (Outcome.success ⟨0, "profile"⟩))).1.comp.persona = some ⟨0, "profile"⟩)
    ∧ (refinementVisible
        (step (step demoFilled Event.clickGenerate).1
          (Event.respond (Outcome.success ⟨0, "profile"⟩))).1.comp = true)
    ∧ ((step (step demoFilled Event.clickGenerate).1
        (Event.respond (Outcome.success ⟨0, "profile"⟩))).1.comp.personaId = some 0)
    ∧ (step
        (step (step demoFilled Event.clickGenerate).1
          (Event.respond (Outcome.success ⟨0, "profile"⟩))).1 Event.clickAddSample
        = ((step (step demoFilled Event.clickGenerate).1
            (Event.respond (Outcome.success ⟨0, "profile"⟩))).1, Option.none)) := by
  have h := zero_id_blocks_refinement demoFilled ⟨0, "profile"⟩ (by decide) (by decide) rfl rfl
  exact ⟨h.1, h.2.1, h.2.2.1, h.2.2.2 _ h.2.2.1⟩

/-- Events creating persona id 1, then refining with a response carrying a
different id 2. The refinement success replaces the record but leaves
PersonaId at 1. -/
def demoIdDrift : List Event :=
  [Event.setNameInput "a", Event.setSampleInput "b", Event.clickGenerate,
   Event.respond (Outcome.success ⟨1, "p1"⟩), Event.setNewSampleInput "c",
   Event.clickAddSample, Event.respond (Outcome.success ⟨2, "p2"⟩)]

/-- C6 counterexample: the invariant "whenever a PersonaRecord is present,
PersonaId equals PersonaRecord.id" fails on the code: after a successful
create with id 1 followed by a successful refinement whose response carries
id 2, the stored record has id 2 while PersonaId is still 1, because
addToPersona stores the response without re-deriving PersonaId from it. -/
theorem personaId_matches_record_counterexample :
    ¬ (∀ m : MState, Reachable m → ∀ r : PersonaResponse,
        m.comp.persona = some r → m.comp.personaId = some r.id) := by
  intro h
  have hx := h (run demoIdDrift) (reachable_run demoIdDrift) ⟨2, "p2"⟩ (by decide)
  have hy : (run demoIdDrift).comp.personaId = some 1 := by decide
  rw [hy] at hx
  exact absurd hx (by decide)

/-- C6 amended: in every reachable state in which a PersonaRecord is present,
PersonaId is set and came from some successful create response; a successful
create sets PersonaId equal to the stored record's id, but a successful
refinement replaces the record while leaving PersonaId unchanged, so after a
refinement whose response carries a different id, PersonaId need not equal
PersonaRecord.id. -/
theorem personaId_provenance_amended :
    (∀ m : MState, Reachable m → m.comp.persona.isSome = true →
      m.comp.personaId.isSome = true)
    ∧ (∀ m : MState, Reachable m → ∀ n, m.comp.personaId = some n → n ∈ m.createdIds)
    ∧ (∀ (m : MState) (req : HttpRequest) (data : PersonaResponse),
        m.pending = Pending.createReq req →
        ((step m (Event.respond (Outcome.success data))).1.comp.personaId = some data.id
         ∧ (step m (Event.respond (Outcome.success data))).1.comp.persona = some data))
    ∧ (∀ (m : MState) (req : HttpRequest) (data : PersonaResponse),
        m.pending = Pending.addReq req →
        (step m (Event.respond (Outcome.success data))).1.comp.personaId
          = m.comp.personaId) := by
  refine ⟨fun m hm => (inv_reachable m hm).2.2.1,
          fun m hm => (inv_reachable m hm).2.2.2, ?_, ?_⟩
  · intro m req data hp
    rw [step_respond_create_success m req data hp]
    exact ⟨rfl, rfl⟩
  · intro m req data hp
    rw [step_respond_add_success m req data hp]

theorem personaId_provenance_amended_witness :
    ((step (run demoFlight) (Event.respond (Outcome.success ⟨1, "profile"⟩))).1.comp.personaId
        = some 1)
    ∧ ((step (run demoFlight) (Event.respond (Outcome.success ⟨1, "profile"⟩))).1.comp.persona
        = some ⟨1, "profile"⟩) :=
  personaId_provenance_amended.2.2.1 (run demoFlight)
    (createRequest "Hemingwayish" "It was a good day.") ⟨1, "profile"⟩ (by decide)

/-- Events reaching a `Ready` state (record present, nothing in flight) with
the creation form still filled in. -/
def demoReadyRun : List Event :=
  [Event.setNameInput "a", Event.setSampleInput "b", Event.clickGenerate,
   Event.respond (Outcome.success ⟨1, "p1"⟩)]

/-- C7 counterexample: the component's transitions are not exactly the spec's
state machine: generatePersona is not triggered only from `Empty`. In the
reachable `Ready` state below (record present, not loading) the generate
button is still enabled — `disabled=\x7bloading || !name || !sample\x7d` does
not depend on `persona` — so clickGenerate dispatches a create request from
`Ready`. -/
theorem spec_state_machine_counterexample :
    ¬ (∀ m : MState, Reachable m →
        (step m Event.clickGenerate).2 ≠ Option.none → phaseOf m = Phase.empty) := by
  intro h
  have hx := h (run demoReadyRun) (reachable_run demoReadyRun) (by decide)
  exact absurd hx (by decide)

/-- Phase transitions possible in the implementation: the spec's five
transitions, plus regeneration from `Ready`, plus stuttering (events that the
UI guards turn into no-ops, and input edits). -/
def allowedStep (p q : Phase) : Bool :=
  (p == q)
  || (p == Phase.empty && q == Phase.generating)
  || (p == Phase.generating && q == Phase.ready)
  || (p == Phase.generating && q == Phase.empty)
  || (p == Phase.ready && q == Phase.refining)
  || (p == Phase.refining && q == Phase.ready)
  || (p == Phase.ready && q == Phase.generating)

theorem allowedStep_refl (p : Phase) : allowedStep p p = true := by
  cases p <;> rfl

/-- C7 amended: every step from a reachable state realises a transition of
the spec's state machine, a stutter, or the one extra transition the code
permits: generatePersona can also be triggered from `Ready` (the generate
button stays enabled once a record exists), moving to `Generating`; a
creation failure then returns to `Ready`, not `Empty`, since the record is
unchanged. The extra `Ready --generatePersona--> Generating` transition is
realised by a concrete reachable state. -/
theorem transition_relation_amended :
    (∀ (m : MState) (e : Event), Reachable m →
      allowedStep (phaseOf m) (phaseOf (step m e).1) = true)
    ∧ (phaseOf (run demoReadyRun) = Phase.ready
       ∧ phaseOf (step (run demoReadyRun) Event.clickGenerate).1 = Phase.generating) := by
  refine ⟨?_, by decide, by decide⟩
  intro m e hm
  obtain ⟨h1, h2, h3, h4⟩ := inv_reachable m hm
  obtain ⟨⟨nm, sm, pe, ld, pid, ns⟩, pending, created⟩ := m
  cases e with
  | setNameInput v => exact allowedStep_refl _
  | setSampleInput v => exact allowedStep_refl _
  | setNewSampleInput v =>
      simp only [step]
      split
      · exact allowedStep_refl _
      · exact allowedStep_refl _
  | clickGenerate =>
      simp only [step]
      split
      · rename_i hc
        simp only [generateEnabled, Bool.and_eq_true, Bool.not_eq_true'] at hc
        have hpend : pending = Pending.idle := by
          by_contra hne
          have hld := h1.mpr hne
          rw [hc.1.1] at hld
          exact Bool.false_ne_true hld
        subst hpend
        cases pe <;> rfl
      · exact allowedStep_refl _
  | clickAddSample =>
      simp only [step]
      split
      · rename_i hc
        split
        · exact allowedStep_refl _
        · cases pid with
          | none => exact allowedStep_refl _
          | some id =>
              obtain ⟨hv, he⟩ := (Bool.and_eq_true _ _).mp hc
              simp only [addEnabled, Bool.and_eq_true, Bool.not_eq_true'] at he
              have hpend : pending = Pending.idle := by
                by_contra hne
                have hld := h1.mpr hne
                rw [he.1] at hld
                exact Bool.false_ne_true hld
              subst hpend
              have hv2 : pe.isSome = true := hv
              cases pe with
              | none => simp at hv2
              | some r => rfl
      · exact allowedStep_refl _
  | respond o =>
      cases pending with
      | idle => cases o <;> exact allowedStep_refl _
      | createReq req =>
          cases o with
          | success data => rfl
          | failure => cases pe <;> rfl
      | addReq req =>
          cases o with
          | success data => rfl
          | failure =>
              have hv2 : pe.isSome = true := (h2 req rfl).1
              cases pe with
              | none => simp at hv2
              | some r => rfl

theorem transition_relation_amended_witness :
    allowedStep (phaseOf (run demoReadyRun))
      (phaseOf (step (run demoReadyRun) Event.clickGenerate).1) = true :=
  transition_relation_amended.1 (run demoReadyRun) Event.clickGenerate
    (reachable_run demoReadyRun)

end PersonaGen
